import Mathlib

/-!
Verification development for the lark-bot-bridge-opencode plugin.

The definitions below are a shallow embedding of the TypeScript sources:
  * src/src/bridge/buffer.ts        (buffer accumulation and rendering)
  * src/src/handler/index.ts        (event listener, flush scheduler, incoming handler)
  * src/src/handler.ts              (earlier single-adapter handler revision)
  * src/unnamed/part_001            (FeishuClient, duplicate-delivery guard)

Modelling conventions:
  * JavaScript strings are modelled as Lean `String`; `.length`, `.slice` and
    `charCodeAt` operate on UTF-16 code units, so `jsLength` counts UTF-16 units
    (astral characters count 2).  Where a JS `slice` index could split a
    surrogate pair the model drops at character granularity.
  * JavaScript `Map` (insertion ordered, unique keys) is an association list;
    `mapSet` updates in place or appends, `mapDelete` removes the entry.
  * JavaScript truthiness on strings / numbers / nullable values is made
    explicit by the `truthy*` helpers (empty string, 0, null/undefined are falsy).
  * `unknown` tool-input payloads are modelled opaquely by their JSON
    serialisation, so `JSON.stringify` is the identity on the payload and its
    try/catch never takes the catch branch.
  * Asynchronous transport calls (sendMessage / editMessage) return
    `string|null` resp. `boolean` in the source and never throw (FeishuClient
    wraps every call in try/catch); they are modelled by explicit outcome
    parameters, and a function that issues such a call reports how many calls
    it issued.
-/

namespace LarkBridge

/-- Number of UTF-16 code units a character occupies (1 for BMP, 2 for astral). -/
def utf16Len (c : Char) : Nat := if c.toNat < 65536 then 1 else 2

/-- The UTF-16 code units of a character, as read by String.charCodeAt. -/
def utf16Units (c : Char) : List Nat :=
  if c.toNat < 65536 then [c.toNat]
  else [55296 + (c.toNat - 65536) / 1024, 56320 + (c.toNat - 65536) % 1024]

/-- JS String.length: the number of UTF-16 code units. -/
def jsLength (s : String) : Nat := (s.data.map utf16Len).sum

/-- simpleHash from src/src/bridge/buffer.ts: h = (h * 31 + charCode) >>> 0 over
the UTF-16 code units, returned as a decimal string.  The intermediate JS
product stays below 2^53, so reducing mod 2^32 at every step is exact. -/
def simpleHash (s : String) : String :=
  toString (s.data.foldl
    (fun h c => (utf16Units c).foldl (fun h' u => (h' * 31 + u) % 4294967296) h) 0)

/-- Drop k UTF-16 code units from the front of a character list (character
granularity when k would split a surrogate pair). -/
def dropUnits : List Char → Nat → List Char
  | cs, 0 => cs
  | [], _ => []
  | c :: cs, k + 1 => dropUnits cs (k + 1 - utf16Len c)

/-- clipTail from src/src/bridge/buffer.ts: keep the trailing max code units.
JS returns the empty string for a falsy input, the string itself when short
enough, and s.slice(-max) otherwise (slice(-0) is slice(0), the whole string). -/
def clipTail (s : String) (max : Nat) : String :=
  if s = "" then ""
  else if jsLength s ≤ max then s
  else if max = 0 then s
  else String.mk (dropUnits s.data (jsLength s - max))

/-- JS String.trim: strip leading and trailing whitespace (modelled with
Char.isWhitespace over the character list). -/
def jsTrim (s : String) : String :=
  String.mk (((s.data.dropWhile Char.isWhitespace).reverse.dropWhile Char.isWhitespace).reverse)

/-- JS truthiness of a string: empty is falsy. -/
def truthyStr (s : String) : Bool := decide (s ≠ "")

/-- JS truthiness of a nullable string: null/undefined and empty are falsy. -/
def truthyStrOpt : Option String → Bool
  | some s => truthyStr s
  | none => false

/-- JS truthiness of a nullable number: null/undefined and 0 are falsy. -/
def truthyNatOpt : Option Nat → Bool
  | some n => decide (n ≠ 0)
  | none => false

/-- JS a || d for a nullable string a and a string default d. -/
def jsOr (a : Option String) (d : String) : String :=
  match a with
  | some v => if truthyStr v then v else d
  | none => d

/-- JS Map.get on an insertion-ordered association list. -/
def mapGet {α : Type} : List (String × α) → String → Option α
  | [], _ => none
  | (k', v) :: rest, k => if k' = k then some v else mapGet rest k

/-- JS Map.set: update in place when the key exists, append otherwise. -/
def mapSet {α : Type} : List (String × α) → String → α → List (String × α)
  | [], k, v => [(k, v)]
  | (k', v') :: rest, k, v =>
    if k' = k then (k, v) :: rest else (k', v') :: mapSet rest k v

/-- JS Map.delete: remove the entry with the key (keys are unique in a Map). -/
def mapDelete {α : Type} : List (String × α) → String → List (String × α)
  | [], _ => []
  | (k', v') :: rest, k => if k' = k then rest else (k', v') :: mapDelete rest k

/-! Data model from src/src/bridge/buffer.ts. -/

inductive ToolStatus where
  | pending
  | running
  | completed
  | error
deriving DecidableEq

def ToolStatus.toStr : ToolStatus → String
  | .pending => "pending"
  | .running => "running"
  | .completed => "completed"
  | .error => "error"

/-- ToolView from src/src/bridge/buffer.ts (tEnd models the field named end). -/
structure ToolView where
  callID : String
  tool : String
  status : ToolStatus
  title : Option String := none
  input : Option String := none
  output : Option String := none
  error : Option String := none
  start : Option Nat := none
  tEnd : Option Nat := none
deriving DecidableEq

/-- ToolState of the SDK as consumed by applyPartToBuffer: a status plus the
optional fields the switch reads (time.start / time.end flattened). -/
structure ToolState where
  status : ToolStatus
  title : Option String := none
  input : Option String := none
  output : Option String := none
  error : Option String := none
  timeStart : Option Nat := none
  timeEnd : Option Nat := none
deriving DecidableEq

inductive BufferStatus where
  | streaming
  | done
  | aborted
  | error
deriving DecidableEq

def BufferStatus.toStr : BufferStatus → String
  | .streaming => "streaming"
  | .done => "done"
  | .aborted => "aborted"
  | .error => "error"

/-- MessageBuffer from src/src/bridge/buffer.ts. -/
structure MessageBuffer where
  platformMsgId : Option String
  reasoning : String
  text : String
  tools : List (String × ToolView)
  lastUpdateTime : Nat
  lastDisplayHash : String
  status : BufferStatus
  statusNote : String
  isCommand : Bool
deriving DecidableEq

abbrev Store := List (String × MessageBuffer)

/-- Part payloads reaching applyPartToBuffer: text/reasoning carry an optional
full snapshot (part.text), tool parts carry callID/tool/state, step-finish
carries a reason; all other part kinds are ignored by the code. -/
inductive Part where
  | text (snapshot : Option String)
  | reasoning (snapshot : Option String)
  | tool (callID : String) (toolName : String) (state : ToolState)
  | stepFinish (reason : Option String)
  | other
deriving DecidableEq

/-- The guard typeof delta === 'string' && delta.length > 0. -/
def deltaNonEmpty : Option String → Bool
  | some d => decide (0 < jsLength d)
  | none => false

/-- The fresh view built when the callID is unseen: the TS object literal cast
as ToolView leaves every optional field undefined. -/
def newToolView (callID toolName : String) (st : ToolStatus) : ToolView :=
  { callID := callID, tool := toolName, status := st }

/-- Field merge of a tool part's state into a view: the switch statement of
applyPartToBuffer (src/src/bridge/buffer.ts lines 197-227). -/
def applyToolState (view : ToolView) (toolName : String) (state : ToolState) : ToolView :=
  let v := { view with tool := toolName, status := state.status, input := state.input }
  match state.status with
  | .pending => v
  | .running =>
    let v := if truthyStrOpt state.title then { v with title := state.title } else v
    if truthyNatOpt state.timeStart then { v with start := state.timeStart } else v
  | .completed =>
    let v := { v with title := state.title, output := state.output }
    let v := if truthyNatOpt state.timeStart then { v with start := state.timeStart } else v
    if truthyNatOpt state.timeEnd then { v with tEnd := state.timeEnd } else v
  | .error =>
    let v := { v with error := state.error }
    let v := if truthyNatOpt state.timeStart then { v with start := state.timeStart } else v
    if truthyNatOpt state.timeEnd then { v with tEnd := state.timeEnd } else v

/-- applyPartToBuffer from src/src/bridge/buffer.ts (lines 168-234): append a
non-empty delta, otherwise adopt a strictly longer snapshot; merge tool parts
into the tool view map; every other part kind is a no-op. -/
def applyPartToBuffer (buffer : MessageBuffer) (part : Part) (delta : Option String) :
    MessageBuffer :=
  match part with
  | .text snapshot =>
    if deltaNonEmpty delta then { buffer with text := buffer.text ++ delta.getD "" }
    else
      match snapshot with
      | some snap =>
        if jsLength buffer.text < jsLength snap then { buffer with text := snap } else buffer
      | none => buffer
  | .reasoning snapshot =>
    if deltaNonEmpty delta then { buffer with reasoning := buffer.reasoning ++ delta.getD "" }
    else
      match snapshot with
      | some snap =>
        if jsLength buffer.reasoning < jsLength snap then { buffer with reasoning := snap }
        else buffer
      | none => buffer
  | .tool callID toolName state =>
    let view := (mapGet buffer.tools callID).getD (newToolView callID toolName state.status)
    { buffer with tools := mapSet buffer.tools callID (applyToolState view toolName state) }
  | .stepFinish _ => buffer
  | .other => buffer

/-! Rendering (buildDisplayContent) from src/src/bridge/buffer.ts, with the
safety clip limits of the same file. -/

def SAFE_MAX_REASONING : Nat := 8000
def SAFE_MAX_TEXT : Nat := 24000
def SAFE_MAX_TOOL_INPUT : Nat := 4000
def SAFE_MAX_TOOL_OUTPUT : Nat := 8000

/-- Throttle interval from src/src/constants/index.ts. -/
def UPDATE_INTERVAL : Nat := 900

/-- The split('\n').map(l => '  ' + l).join('\n') indentation step. -/
def indent2 (s : String) : String :=
  String.intercalate "\n" ((s.splitOn "\n").map (fun l => "  " ++ l))

/-- safeJsonStringify: the input payload is modelled as its JSON serialisation,
so JSON.stringify is the identity and only the clip remains. -/
def safeJsonStringify (x : String) (maxChars : Nat) : String := clipTail x maxChars

/-- The lines pushed for one tool view inside the Tools section. -/
def toolViewLines (t : ToolView) : List String :=
  ["-" ++ (if truthyStr t.tool then t.tool else "tool") ++ "(" ++ t.status.toStr ++ ")"
      ++ (match t.title with
          | some ti => if truthyStr ti then " " ++ ti else ""
          | none => "")]
  ++ (match t.input with
      | some x => ["  input:", "  ```json", indent2 (safeJsonStringify x SAFE_MAX_TOOL_INPUT),
                   "  ```"]
      | none => [])
  ++ (if truthyStrOpt t.output then
        ["  output:", "  ```", indent2 (clipTail (t.output.getD "") SAFE_MAX_TOOL_OUTPUT), "  ```"]
      else [])
  ++ (if truthyStrOpt t.error then
        ["  error:", "  ```", indent2 (clipTail (t.error.getD "") SAFE_MAX_TOOL_OUTPUT), "  ```"]
      else [])
  ++ (if truthyNatOpt t.start || truthyNatOpt t.tEnd then
        ["  time: " ++ (match t.start with | some n => toString n | none => "")
            ++ (if truthyNatOpt t.tEnd then " -> " ++ toString (t.tEnd.getD 0) else "")]
      else [])

/-- buildDisplayContent from src/src/bridge/buffer.ts (lines 94-166): Answer
(or Command) section, optional Thinking, optional Tools, then Status, joined
with newlines. -/
def buildDisplayContent (buffer : MessageBuffer) : String :=
  String.intercalate "\n"
    ([if buffer.isCommand then "## Command 🧭" else "## Answer",
      if truthyStr buffer.text then clipTail buffer.text SAFE_MAX_TEXT else "",
      ""]
     ++ (if truthyStr buffer.reasoning && truthyStr (jsTrim buffer.reasoning) then
           ["## Thinking", clipTail buffer.reasoning SAFE_MAX_REASONING, ""]
         else [])
     ++ (if 0 < buffer.tools.length then
           "## Tools" :: ((buffer.tools.map (fun kv => toolViewLines kv.2)).flatten ++ [""])
         else [])
     ++ ["## Status",
         buffer.status.toStr
           ++ (if truthyStr buffer.statusNote then ": " ++ buffer.statusNote else "")])

/-! Store operations from src/src/bridge/buffer.ts and the flush scheduler of
src/src/handler/index.ts. -/

def initialBuffer : MessageBuffer :=
  { platformMsgId := none, reasoning := "", text := "", tools := [], lastUpdateTime := 0,
    lastDisplayHash := "", status := .streaming, statusNote := "", isCommand := false }

/-- getOrInitBuffer: return the tracked buffer, creating a fresh one on a miss.
Returns the buffer together with the (possibly extended) store. -/
def getOrInitBuffer (store : Store) (messageId : String) : MessageBuffer × Store :=
  match mapGet store messageId with
  | some buf => (buf, store)
  | none => (initialBuffer, mapSet store messageId initialBuffer)

/-- markStatus from src/src/bridge/buffer.ts (lines 83-92): set status
unconditionally, and the note (clipped to 500) only when truthy. -/
def markStatus (store : Store) (messageId : String) (status : BufferStatus)
    (note : Option String) : Store :=
  let p := getOrInitBuffer store messageId
  let buf := { p.1 with status := status }
  let buf := if truthyStrOpt note then { buf with statusNote := clipTail (note.getD "") 500 }
             else buf
  mapSet p.2 messageId buf

/-- shouldFlushNow from src/src/bridge/buffer.ts (lines 236-240), with
Date.now() passed explicitly. -/
def shouldFlushNow (buffer : MessageBuffer) (now : Nat) : Bool :=
  !(truthyStrOpt buffer.platformMsgId) || decide (UPDATE_INTERVAL < now - buffer.lastUpdateTime)

/-- safeEditWithRetry from src/src/handler/index.ts (lines 41-51): one edit,
and on a false result a 500ms sleep and exactly one more edit.  editMessage
returns a Bool and never throws (FeishuClient catches internally), so the two
attempt outcomes are the r1/r2 parameters.  Returns (result, number of edit
attempts issued, sleeps performed in ms). -/
def safeEditWithRetry (r1 r2 : Bool) : Bool × Nat × List Nat :=
  if r1 then (true, 1, []) else (r2, 2, [500])

/-- flushMessage from src/src/handler/index.ts (lines 53-70).  Skips when the
buffer is missing, has no platform message, renders to blank, or (unforced)
hashes to the previously recorded hash; otherwise records the new hash and
issues one safeEditWithRetry whose outcome is discarded (.catch swallows it).
Returns (store, number of safeEditWithRetry invocations, edit attempts). -/
def flushMessage (store : Store) (messageId : String) (force r1 r2 : Bool) :
    Store × Nat × Nat :=
  match mapGet store messageId with
  | none => (store, 0, 0)
  | some buffer =>
    if truthyStrOpt buffer.platformMsgId = false then (store, 0, 0)
    else
      let content := buildDisplayContent buffer
      if truthyStr (jsTrim content) = false then (store, 0, 0)
      else
        let hash := simpleHash content
        if force = false ∧ hash = buffer.lastDisplayHash then (store, 0, 0)
        else
          (mapSet store messageId { buffer with lastDisplayHash := hash }, 1,
           (safeEditWithRetry r1 r2).2.1)

/-- Inline flush step of the part-delta hot path, src/src/handler/index.ts
lines 193-214: throttle gate, has-content gate, lastUpdateTime stamp, hash
dedup (only when a platform message exists), then either a first send (whose
returned id is adopted when truthy) or an edit (hash recorded only on ok).
Returns the updated buffer and the number of transport send/edit operations
issued. -/
def partFlushStep (buffer : MessageBuffer) (now : Nat) (sendResult : Option String)
    (r1 r2 : Bool) : MessageBuffer × Nat :=
  if shouldFlushNow buffer now = false then (buffer, 0)
  else if ¬(0 < jsLength buffer.reasoning ∨ 0 < jsLength buffer.text ∨ 0 < buffer.tools.length)
      then (buffer, 0)
  else
    let buffer := { buffer with lastUpdateTime := now }
    let display := buildDisplayContent buffer
    let hash := simpleHash display
    if truthyStrOpt buffer.platformMsgId = true ∧ hash = buffer.lastDisplayHash then (buffer, 0)
    else if truthyStrOpt buffer.platformMsgId = false then
      match sendResult with
      | some sid =>
        if truthyStr sid then
          ({ buffer with platformMsgId := some sid, lastDisplayHash := hash }, 1)
        else (buffer, 1)
      | none => (buffer, 1)
    else
      if (safeEditWithRetry r1 r2).1 then ({ buffer with lastDisplayHash := hash }, 1)
      else (buffer, 1)

/-! Event-handler branches of startGlobalEventListener, src/src/handler/index.ts. -/

/-- session.idle branch (lines 256-264): when the buffer is already
aborted/error only force a flush, otherwise mark done with note "idle" and
force a flush.  The returned Bool records that a forced flush was issued. -/
def onSessionIdle (store : Store) (mid : String) : Store × Bool :=
  match mapGet store mid with
  | some buf =>
    if buf.status = .aborted ∨ buf.status = .error then (store, true)
    else (markStatus store mid .done (some "idle"), true)
  | none => (markStatus store mid .done (some "idle"), true)

/-- step-finish sub-branch of the part-delta handler (lines 182-191): mark done
only while the buffer is still streaming.  The buffer was just obtained via
getOrInitBuffer in the surrounding code, mirrored here. -/
def onStepFinish (store : Store) (mid : String) (reason : Option String) : Store :=
  let p := getOrInitBuffer store mid
  if p.1.status = .streaming then markStatus p.2 mid .done (some (jsOr reason "step-finish"))
  else p.2

/-- The error object carried by a message.updated event (err.name plus
err.data.message as read by the classifiers). -/
structure ErrInfo where
  name : String
  dataMessage : Option String
deriving DecidableEq

/-- The assistant-message metadata consumed by the message.updated branch. -/
structure AssistantInfo where
  error : Option ErrInfo
  finish : Option String
  timeCompleted : Option Nat
deriving DecidableEq

/-- message.updated branch for an assistant message (lines 120-149): classify
an embedded error into aborted / error-with-note, else on a truthy finish or
time.completed mark done; each of those forces a flush (the returned Bool). -/
def onAssistantUpdated (store : Store) (mid : String) (info : AssistantInfo) : Store × Bool :=
  match info.error with
  | some e =>
    if e.name = "MessageAbortedError" then
      (markStatus store mid .aborted (some (jsOr e.dataMessage "aborted")), true)
    else if e.name = "MessageOutputLengthError" then
      (markStatus store mid .error (some "output too long"), true)
    else if e.name = "APIError" then
      (markStatus store mid .error (some (jsOr e.dataMessage "api error")), true)
    else
      (markStatus store mid .error (some (jsOr e.dataMessage (jsOr (some e.name) "error"))), true)
  | none =>
    if truthyStrOpt info.finish || truthyNatOpt info.timeCompleted then
      (markStatus store mid .done (some (jsOr info.finish "completed")), true)
    else (store, false)

/-! Reconnect backoff of the connect loop, src/src/handler/index.ts lines
95-99 and 270-279: retryCount resets to 0 after a successful subscribe; on a
stream failure the delay is min(5000 * (retryCount + 1), 60000) and retryCount
is incremented afterwards. -/

inductive StreamEvent where
  | failure
  | success
deriving DecidableEq

def backoffDelay (retryCount : Nat) : Nat := min (5000 * (retryCount + 1)) 60000

/-- One connect-loop outcome: new retryCount and the scheduled delay, if any. -/
def stepConn : Nat → StreamEvent → Nat × Option Nat
  | _, .success => (0, none)
  | n, .failure => (n + 1, some (backoffDelay n))

/-- Fold a sequence of connect outcomes, collecting the scheduled delays. -/
def runConn (n : Nat) : List StreamEvent → Nat × List Nat
  | [] => (n, [])
  | e :: es =>
    let p := stepConn n e
    let q := runConn p.1 es
    (q.1, p.2.toList ++ q.2)

/-! Duplicate-delivery guard, FeishuClient.isMessageProcessed
(src/unnamed/part_001 lines 128-139).  The JS Set iterates in insertion order,
so it is modelled as a duplicate-free list with the oldest element first. -/

/-- isMessageProcessed: true (already processed) when the id is present;
otherwise remember it and, above 2000 entries, evict the oldest. -/
def isMessageProcessed (seen : List String) (messageId : String) : Bool × List String :=
  if messageId ∈ seen then (true, seen)
  else if 2000 < (seen ++ [messageId]).length then (false, (seen ++ [messageId]).tail)
  else (false, seen ++ [messageId])

/-- Deliveries reaching the transport callback: each id goes through the guard
and only unseen ids invoke the handler (the count of invocations). -/
def processDeliveries (seen : List String) (count : Nat) : List String → List String × Nat
  | [] => (seen, count)
  | mid :: rest =>
    let p := isMessageProcessed seen mid
    if p.1 then processDeliveries p.2 count rest
    else processDeliveries p.2 (count + 1) rest

/-! Session-cache handling of the prompt error paths. -/

/-- The error shape inspected by the catch blocks (err.status / err.message). -/
structure PromptError where
  status : Option Nat
  message : Option String
deriving DecidableEq

/-- Effect on sessionCache of the catch block in createMessageHandler
(src/src/handler.ts lines 580-583): a 404 evicts chatId from the cache. -/
def messageHandlerCatch (sessionCache : List (String × String)) (chatId : String)
    (err : PromptError) : List (String × String) :=
  if err.status = some 404 then mapDelete sessionCache chatId else sessionCache

/-- Effect on sessionCache of the catch block in createIncomingHandler
(src/src/handler/index.ts lines 341-344): it only logs and sends an error
reply; sessionCache is left untouched, whatever the error status. -/
def incomingHandlerCatch (sessionCache : List (String × String)) (cacheKey : String)
    (err : PromptError) : List (String × String) :=
  sessionCache

/-- Session acquisition of both handlers: reuse a truthy cached id, otherwise
take the backend's fresh id (caching it when truthy). -/
def acquireSessionId (cache : List (String × String)) (cacheKey : String)
    (freshId : Option String) : Option String × List (String × String) :=
  let cached := mapGet cache cacheKey
  if truthyStrOpt cached then (cached, cache)
  else
    match freshId with
    | some fid => (some fid, if truthyStr fid then mapSet cache cacheKey fid else cache)
    | none => (none, cache)

/-! Fold helpers for delta sequences (claim C3): each element is a pair of the
part's optional snapshot and its delta string. -/

def applyTextParts (b : MessageBuffer) (ps : List (Option String × String)) : MessageBuffer :=
  ps.foldl (fun acc pr => applyPartToBuffer acc (Part.text pr.1) (some pr.2)) b

def applyReasoningParts (b : MessageBuffer) (ps : List (Option String × String)) :
    MessageBuffer :=
  ps.foldl (fun acc pr => applyPartToBuffer acc (Part.reasoning pr.1) (some pr.2)) b

/-! Helper lemmas. -/

lemma mapGet_mapSet_self {α : Type} (m : List (String × α)) (k : String) (v : α) :
    mapGet (mapSet m k v) k = some v := by
  induction m with
  | nil => simp [mapSet, mapGet]
  | cons p rest ih =>
    obtain ⟨k', v'⟩ := p
    by_cases h : k' = k
    · simp [mapSet, h, mapGet]
    · simp [mapSet, h, mapGet, ih]

lemma mapGet_eq_none_of_not_mem {α : Type} {m : List (String × α)} {k : String}
    (h : k ∉ m.map Prod.fst) : mapGet m k = none := by
  induction m with
  | nil => rfl
  | cons p rest ih =>
    obtain ⟨k', v'⟩ := p
    rw [List.map_cons, List.mem_cons] at h
    push_neg at h
    simp only [mapGet]
    rw [if_neg (fun hk => h.1 hk.symm)]
    exact ih h.2

lemma mapGet_mapDelete_self {α : Type} {m : List (String × α)} {k : String}
    (h : (m.map Prod.fst).Nodup) : mapGet (mapDelete m k) k = none := by
  induction m with
  | nil => rfl
  | cons p rest ih =>
    obtain ⟨k', v'⟩ := p
    rw [List.map_cons, List.nodup_cons] at h
    by_cases hk : k' = k
    · subst hk
      simpa [mapDelete] using mapGet_eq_none_of_not_mem h.1
    · simp only [mapDelete, if_neg hk, mapGet]
      exact ih h.2

lemma utf16Len_pos (c : Char) : 0 < utf16Len c := by
  unfold utf16Len; split <;> simp

lemma jsLength_append (a b : String) : jsLength (a ++ b) = jsLength a + jsLength b := by
  simp [jsLength, String.data_append]

lemma jsLength_pos {s : String} (h : s ≠ "") : 0 < jsLength s := by
  obtain ⟨l⟩ := s
  cases l with
  | nil => simp at h
  | cons c cs =>
    have := utf16Len_pos c
    simp [jsLength]
    omega

lemma deltaNonEmpty_some {d : String} (h : d ≠ "") : deltaNonEmpty (some d) = true := by
  simp [deltaNonEmpty, jsLength_pos h]

lemma join_cons (s : String) (l : List String) : String.join (s :: l) = s ++ String.join l := by
  simp [String.join_eq]
  rfl

lemma truthyStr_jsOr {d : String} (a : Option String) (h : d ≠ "") :
    truthyStr (jsOr a d) = true := by
  cases a with
  | none => simp [jsOr, truthyStr, h]
  | some v =>
    by_cases hv : truthyStr v = true
    · simp [jsOr, hv]
    · simp only [jsOr]
      rw [if_neg hv]
      simp [truthyStr, h]

lemma applyPart_text_delta (b : MessageBuffer) (snap : Option String) {d : String}
    (h : d ≠ "") :
    applyPartToBuffer b (Part.text snap) (some d) = { b with text := b.text ++ d } := by
  simp [applyPartToBuffer, deltaNonEmpty_some h]

lemma applyPart_reasoning_delta (b : MessageBuffer) (snap : Option String) {d : String}
    (h : d ≠ "") :
    applyPartToBuffer b (Part.reasoning snap) (some d) =
      { b with reasoning := b.reasoning ++ d } := by
  simp [applyPartToBuffer, deltaNonEmpty_some h]

lemma applyToolState_status (view : ToolView) (toolName : String) (state : ToolState) :
    (applyToolState view toolName state).status = state.status := by
  unfold applyToolState
  cases hs : state.status <;> simp [hs] <;> (repeat' split) <;> rfl

/-- C3: for every sequence of text (resp. reasoning) parts carrying non-empty
delta strings, the buffer's text (resp. reasoning) length is non-decreasing at
every applyPartToBuffer step (in fact for every part whatsoever), and the
final accumulated value is the initial value followed by the deltas
concatenated in arrival order. -/
theorem delta_accumulation_faithful :
    (∀ (b : MessageBuffer) (part : Part) (delta : Option String),
        jsLength b.text ≤ jsLength (applyPartToBuffer b part delta).text ∧
        jsLength b.reasoning ≤ jsLength (applyPartToBuffer b part delta).reasoning) ∧
    (∀ (b : MessageBuffer) (ps : List (Option String × String)),
        (∀ pr ∈ ps, pr.2 ≠ "") →
        (applyTextParts b ps).text = b.text ++ String.join (ps.map Prod.snd) ∧
        (applyReasoningParts b ps).reasoning = b.reasoning ++ String.join (ps.map Prod.snd)) := by
  constructor
  · intro b part delta
    cases part with
    | text snap =>
      by_cases hd : deltaNonEmpty delta = true
      · simp [applyPartToBuffer, hd, jsLength_append]
      · cases snap with
        | none => simp [applyPartToBuffer, hd]
        | some s =>
          simp only [applyPartToBuffer, hd, if_false, Bool.false_eq_true]
          split
          · rename_i hlt
            exact ⟨le_of_lt hlt, le_refl _⟩
          · exact ⟨le_refl _, le_refl _⟩
    | reasoning snap =>
      by_cases hd : deltaNonEmpty delta = true
      · simp [applyPartToBuffer, hd, jsLength_append]
      · cases snap with
        | none => simp [applyPartToBuffer, hd]
        | some s =>
          simp only [applyPartToBuffer, hd, if_false, Bool.false_eq_true]
          split
          · rename_i hlt
            exact ⟨le_refl _, le_of_lt hlt⟩
          · exact ⟨le_refl _, le_refl _⟩
    | tool cid tn st => simp [applyPartToBuffer]
    | stepFinish r => simp [applyPartToBuffer]
    | other => simp [applyPartToBuffer]
  · intro b ps
    induction ps generalizing b with
    | nil => simp [applyTextParts, applyReasoningParts, String.join]
    | cons pr rest ih =>
      intro hps
      have hhd : pr.2 ≠ "" := hps pr (List.mem_cons_self pr rest)
      have htl : ∀ q ∈ rest, q.2 ≠ "" := fun q hq => hps q (List.mem_cons_of_mem pr hq)
      have hstep₁ : applyTextParts b (pr :: rest) =
          applyTextParts { b with text := b.text ++ pr.2 } rest := by
        simp [applyTextParts, applyPart_text_delta _ _ hhd]
      have hstep₂ : applyReasoningParts b (pr :: rest) =
          applyReasoningParts { b with reasoning := b.reasoning ++ pr.2 } rest := by
        simp [applyReasoningParts, applyPart_reasoning_delta _ _ hhd]
      have hih₁ := (ih { b with text := b.text ++ pr.2 } htl).1
      have hih₂ := (ih { b with reasoning := b.reasoning ++ pr.2 } htl).2
      constructor
      · rw [hstep₁, hih₁]
        simp [join_cons, String.append_assoc]
      · rw [hstep₂, hih₂]
        simp [join_cons, String.append_assoc]

/-- C3 witness: two deltas accumulate to the concatenation and each step is
length-monotone. -/
theorem delta_accumulation_faithful_witness :
    ((∀ pr ∈ ([(none, "Hel"), (some "x", "lo")] : List (Option String × String)), pr.2 ≠ "") ∧
      (applyTextParts initialBuffer [(none, "Hel"), (some "x", "lo")]).text =
        initialBuffer.text ++ String.join [ "Hel", "lo"]) ∧
    jsLength initialBuffer.text ≤
      jsLength (applyPartToBuffer initialBuffer (Part.text none) (some "Hel")).text := by
  refine ⟨⟨by decide, ?_⟩, (delta_accumulation_faithful.1 initialBuffer (Part.text none)
    (some "Hel")).1⟩
  exact (delta_accumulation_faithful.2 initialBuffer [(none, "Hel"), (some "x", "lo")]
    (by decide)).1

/-- C4: with no (or empty) delta, a full snapshot is adopted only when strictly
longer than the current accumulated value; a shorter-or-equal snapshot leaves
the buffer unchanged, so snapshot application never shortens content. -/
theorem snapshot_replaces_only_if_longer :
    ∀ (b : MessageBuffer) (snap : String) (delta : Option String),
      deltaNonEmpty delta = false →
      ((jsLength snap ≤ jsLength b.text →
          applyPartToBuffer b (Part.text (some snap)) delta = b) ∧
       (jsLength b.text < jsLength snap →
          applyPartToBuffer b (Part.text (some snap)) delta = { b with text := snap }) ∧
       (jsLength snap ≤ jsLength b.reasoning →
          applyPartToBuffer b (Part.reasoning (some snap)) delta = b) ∧
       (jsLength b.reasoning < jsLength snap →
          applyPartToBuffer b (Part.reasoning (some snap)) delta =
            { b with reasoning := snap })) := by
  intro b snap delta hd
  refine ⟨fun h => ?_, fun h => ?_, fun h => ?_, fun h => ?_⟩ <;>
    simp [applyPartToBuffer, hd, Nat.not_lt.mpr, h, Nat.not_lt.mpr h]

/-- C4 witness: a shorter snapshot is a no-op, a longer one is adopted. -/
theorem snapshot_replaces_only_if_longer_witness :
    deltaNonEmpty (none : Option String) = false ∧
    jsLength "He" ≤ jsLength (MessageBuffer.text { initialBuffer with text := "Hello" }) ∧
    applyPartToBuffer { initialBuffer with text := "Hello" } (Part.text (some "He")) none =
      { initialBuffer with text := "Hello" } := by
  refine ⟨rfl, by decide, ?_⟩
  exact (snapshot_replaces_only_if_longer { initialBuffer with text := "Hello" } "He" none
    rfl).1 (by decide)

/-- C2 (amended): applyPartToBuffer always overwrites a tool view's status with
the incoming part's state.status (last-writer-wins); auxiliary fields are
merged per status.  In particular the status is not guarded against moving
backwards from completed/error. -/
theorem tool_status_last_writer_wins :
    ∀ (buffer : MessageBuffer) (callID toolName : String) (state : ToolState)
      (delta : Option String),
      (mapGet (applyPartToBuffer buffer (Part.tool callID toolName state) delta).tools
          callID).map ToolView.status = some state.status := by
  intro buffer cid tn st delta
  simp [applyPartToBuffer, mapGet_mapSet_self, applyToolState_status]

/-- Concrete completed tool view used by the C2 counterexample. -/
def completedView : ToolView := { callID := "c1", tool := "bash", status := .completed }

/-- Concrete buffer whose tool "c1" is already completed. -/
def bufToolDone : MessageBuffer := { initialBuffer with tools := [("c1", completedView)] }

/-- C2 counterexample: a later tool part with the same callId and a pending
state flips the view's status from completed back to pending, so the claimed
no-regression invariant does not hold in applyPartToBuffer. -/
theorem tool_status_regresses :
    (mapGet bufToolDone.tools "c1").map ToolView.status = some ToolStatus.completed ∧
    (mapGet (applyPartToBuffer bufToolDone
        (Part.tool "c1" "bash" { status := .pending }) none).tools "c1").map ToolView.status =
      some ToolStatus.pending := by
  constructor <;> rfl

lemma markStatus_status (store : Store) (mid : String) (st : BufferStatus)
    (note : Option String) :
    (mapGet (markStatus store mid st note) mid).map MessageBuffer.status = some st := by
  unfold markStatus
  rw [mapGet_mapSet_self]
  split <;> rfl

/-- C1 (amended): for a buffer already aborted or in error, a session-idle
event leaves the store untouched and only forces a flush, and a step-finish
part is a no-op; a message-metadata finish/completed signal without an error,
however, unconditionally overwrites the status to done. -/
theorem abort_error_survive_idle_and_step_finish :
    ∀ (store : Store) (mid : String) (buf : MessageBuffer),
      mapGet store mid = some buf →
      (buf.status = .aborted ∨ buf.status = .error) →
      onSessionIdle store mid = (store, true) ∧
      (∀ reason, onStepFinish store mid reason = store) ∧
      (∀ info : AssistantInfo, info.error = none →
        (truthyStrOpt info.finish || truthyNatOpt info.timeCompleted) = true →
        (mapGet (onAssistantUpdated store mid info).1 mid).map MessageBuffer.status =
          some BufferStatus.done) := by
  intro store mid buf hm hst
  refine ⟨?_, ?_, ?_⟩
  · simp only [onSessionIdle, hm]
    rw [if_pos hst]
  · intro reason
    have hns : ¬buf.status = BufferStatus.streaming := by
      rcases hst with h | h <;> simp [h]
    simp only [onStepFinish, getOrInitBuffer, hm]
    rw [if_neg hns]
  · intro info he hf
    simp only [onAssistantUpdated, he, hf, if_true]
    exact markStatus_status store mid .done (some (jsOr info.finish "completed"))

/-- Concrete aborted buffer for the C1 counterexample. -/
def bufAborted : MessageBuffer := { initialBuffer with status := .aborted }

/-- Concrete one-buffer store whose buffer "m1" is aborted. -/
def storeAborted : Store := [("m1", bufAborted)]

/-- Concrete assistant metadata carrying a finish signal and no error. -/
def finishInfo : AssistantInfo := { error := none, finish := some "stop", timeCompleted := none }

/-- C1 counterexample: a message-metadata finish signal arriving for an
aborted buffer overwrites its status with done, so the claim that every later
completion signal (including message-metadata finish) leaves aborted/error
unchanged is false on the code. -/
theorem metadata_finish_overwrites_abort :
    (mapGet storeAborted "m1").map MessageBuffer.status = some BufferStatus.aborted ∧
    (mapGet (onAssistantUpdated storeAborted "m1" finishInfo).1 "m1").map
        MessageBuffer.status = some BufferStatus.done := by
  constructor <;> rfl

/-- C1 witness: the amended theorem applied to the concrete aborted store. -/
theorem abort_error_survive_idle_and_step_finish_witness :
    mapGet storeAborted "m1" = some bufAborted ∧
    (bufAborted.status = .aborted ∨ bufAborted.status = .error) ∧
    finishInfo.error = none ∧
    (truthyStrOpt finishInfo.finish || truthyNatOpt finishInfo.timeCompleted) = true ∧
    onSessionIdle storeAborted "m1" = (storeAborted, true) ∧
    onStepFinish storeAborted "m1" (some "stop") = storeAborted ∧
    (mapGet (onAssistantUpdated storeAborted "m1" finishInfo).1 "m1").map
        MessageBuffer.status = some BufferStatus.done := by
  have h := abort_error_survive_idle_and_step_finish storeAborted "m1" bufAborted rfl
    (Or.inl rfl)
  exact ⟨rfl, Or.inl rfl, rfl, rfl, h.1, h.2.1 (some "stop"), h.2.2 finishInfo rfl rfl⟩

lemma buildDisplayContent_hash_irrel (b : MessageBuffer) (h : String) :
    buildDisplayContent { b with lastDisplayHash := h } = buildDisplayContent b := rfl

lemma buildDisplayContent_time_irrel (b : MessageBuffer) (t : Nat) :
    buildDisplayContent { b with lastUpdateTime := t } = buildDisplayContent b := rfl

lemma flushMessage_skip {store : Store} {mid : String} {force r1 r2 : Bool}
    (h : (flushMessage store mid force r1 r2).2.1 = 0) :
    flushMessage store mid force r1 r2 = (store, 0, 0) := by
  unfold flushMessage at h ⊢
  cases hm : mapGet store mid with
  | none => rfl
  | some buffer =>
    rw [hm] at h
    by_cases hp : truthyStrOpt buffer.platformMsgId = false
    · simp [hp]
    · by_cases ht : truthyStr (jsTrim (buildDisplayContent buffer)) = false
      · simp [hp, ht]
      · by_cases hh : force = false ∧
            simpleHash (buildDisplayContent buffer) = buffer.lastDisplayHash
        · simp [hp, ht, hh]
        · simp [hp, ht, hh] at h

lemma flushMessage_write_char {store : Store} {mid : String} {force r1 r2 : Bool}
    (h : (flushMessage store mid force r1 r2).2.1 ≠ 0) :
    ∃ buffer, mapGet store mid = some buffer ∧
      truthyStrOpt buffer.platformMsgId = true ∧
      truthyStr (jsTrim (buildDisplayContent buffer)) = true ∧
      flushMessage store mid force r1 r2 =
        (mapSet store mid
            { buffer with lastDisplayHash := simpleHash (buildDisplayContent buffer) }, 1,
          (safeEditWithRetry r1 r2).2.1) := by
  unfold flushMessage at h ⊢
  cases hm : mapGet store mid with
  | none => rw [hm] at h; exact absurd rfl h
  | some buffer =>
    rw [hm] at h
    by_cases hp : truthyStrOpt buffer.platformMsgId = false
    · simp [hp] at h
    · by_cases ht : truthyStr (jsTrim (buildDisplayContent buffer)) = false
      · simp [hp, ht] at h
      · by_cases hh : force = false ∧
            simpleHash (buildDisplayContent buffer) = buffer.lastDisplayHash
        · simp [hp, ht, hh] at h
        · exact ⟨buffer, rfl, by simpa using hp, by simpa using ht, by simp [hp, ht, hh]⟩

lemma flushMessage_count_le_one (store : Store) (mid : String) (force r1 r2 : Bool) :
    (flushMessage store mid force r1 r2).2.1 ≤ 1 := by
  unfold flushMessage
  cases hm : mapGet store mid with
  | none => exact Nat.zero_le 1
  | some buffer =>
    by_cases hp : truthyStrOpt buffer.platformMsgId = false
    · simp [hp]
    · by_cases ht : truthyStr (jsTrim (buildDisplayContent buffer)) = false
      · simp [hp, ht]
      · by_cases hh : force = false ∧
            simpleHash (buildDisplayContent buffer) = buffer.lastDisplayHash
        · simp [hp, ht, hh]
        · simp [hp, ht, hh]

lemma flushMessage_count_r_indep (store : Store) (mid : String) (force r1 r2 r3 r4 : Bool) :
    (flushMessage store mid force r1 r2).2.1 = (flushMessage store mid force r3 r4).2.1 := by
  unfold flushMessage
  cases hm : mapGet store mid with
  | none => rfl
  | some buffer =>
    by_cases hp : truthyStrOpt buffer.platformMsgId = false
    · simp [hp]
    · by_cases ht : truthyStr (jsTrim (buildDisplayContent buffer)) = false
      · simp [hp, ht]
      · by_cases hh : force = false ∧
            simpleHash (buildDisplayContent buffer) = buffer.lastDisplayHash
        · simp [hp, ht, hh]
        · simp [hp, ht, hh]

/-- Unforced flushing is idempotent on writes: whatever a first unforced flush
did (including recording the hash before a failing edit), an immediately
following unforced flush of the same message issues no transport write. -/
lemma flush_then_flush_zero (store : Store) (mid : String) (r1 r2 r3 r4 : Bool) :
    (flushMessage (flushMessage store mid false r1 r2).1 mid false r3 r4).2.1 = 0 := by
  by_cases h : (flushMessage store mid false r1 r2).2.1 = 0
  · rw [flushMessage_skip h]
    rw [← flushMessage_count_r_indep store mid false r1 r2 r3 r4]
    exact h
  · obtain ⟨buffer, hm, hp, ht, heq⟩ := flushMessage_write_char h
    rw [heq]
    unfold flushMessage
    rw [mapGet_mapSet_self]
    simp [hp, ht, buildDisplayContent_hash_irrel]

/-- Skip lemma for the inline part-delta flush path: with a truthy platform
message id and an unchanged rendered hash, no send/edit is issued. -/
lemma partFlushStep_hash_skip (buffer : MessageBuffer) (now : Nat) (s : Option String)
    (r3 r4 : Bool) (hp : truthyStrOpt buffer.platformMsgId = true)
    (hh : simpleHash (buildDisplayContent buffer) = buffer.lastDisplayHash) :
    (partFlushStep buffer now s r3 r4).2 = 0 := by
  unfold partFlushStep
  by_cases hf : shouldFlushNow buffer now = false
  · simp [hf]
  · by_cases ha : ¬(0 < jsLength buffer.reasoning ∨ 0 < jsLength buffer.text ∨
        0 < buffer.tools.length)
    · simp [hf, ha]
    · simp [hf, ha, buildDisplayContent_time_irrel, hp, hh]

/-- C5: an unforced flush whose rendered content hashes to the hash recorded
at the previous flush issues no transport write — both in flushMessage and in
the inline part-delta flush path — and two consecutive unforced flushMessage
calls (whose rendered content is byte-identical because only the recorded
hash changed in between) issue at most one send/edit operation in total. -/
theorem flush_hash_dedup :
    ∀ (store : Store) (mid : String) (buffer : MessageBuffer) (r1 r2 r3 r4 : Bool)
      (now : Nat) (sendResult : Option String),
      (mapGet store mid = some buffer →
        simpleHash (buildDisplayContent buffer) = buffer.lastDisplayHash →
        (flushMessage store mid false r1 r2).2.1 = 0) ∧
      (truthyStrOpt buffer.platformMsgId = true →
        simpleHash (buildDisplayContent buffer) = buffer.lastDisplayHash →
        (partFlushStep buffer now sendResult r3 r4).2 = 0) ∧
      (flushMessage store mid false r1 r2).2.1 +
          (flushMessage (flushMessage store mid false r1 r2).1 mid false r3 r4).2.1 ≤ 1 := by
  intro store mid buffer r1 r2 r3 r4 now sendResult
  refine ⟨?_, ?_, ?_⟩
  · intro hm hh
    unfold flushMessage
    rw [hm]
    by_cases hp : truthyStrOpt buffer.platformMsgId = false
    · simp [hp]
    · by_cases ht : truthyStr (jsTrim (buildDisplayContent buffer)) = false
      · simp [hp, ht]
      · simp [hp, ht, hh]
  · exact partFlushStep_hash_skip buffer now sendResult r3 r4
  · have h2 := flush_then_flush_zero store mid r1 r2 r3 r4
    have h1 := flushMessage_count_le_one store mid false r1 r2
    omega

/-- Base buffer for the C5 witness. -/
def bufBase : MessageBuffer :=
  { initialBuffer with platformMsgId := some "pm1", text := "hi", status := .done }

/-- Buffer whose recorded hash already matches its rendered content. -/
def bufSynced : MessageBuffer :=
  { bufBase with lastDisplayHash := simpleHash (buildDisplayContent bufBase) }

/-- Store for the C5 witness. -/
def storeSynced : Store := [("m5", bufSynced)]

/-- C5 witness: on a concrete synced buffer both flush paths skip the write. -/
theorem flush_hash_dedup_witness :
    mapGet storeSynced "m5" = some bufSynced ∧
    simpleHash (buildDisplayContent bufSynced) = bufSynced.lastDisplayHash ∧
    truthyStrOpt bufSynced.platformMsgId = true ∧
    (flushMessage storeSynced "m5" false true true).2.1 = 0 ∧
    (partFlushStep bufSynced 0 none true true).2 = 0 := by
  have h := flush_hash_dedup storeSynced "m5" bufSynced true true true true 0 none
  exact ⟨rfl, rfl, rfl, h.1 rfl rfl, h.2.1 rfl rfl⟩

/-- C9: safeEditWithRetry makes exactly one edit attempt on success and, on a
false first outcome, sleeps 500ms and makes exactly one more attempt, whose
false result it returns without throwing (editMessage returns a Bool and
FeishuClient catches internally; flushMessage additionally discards the
promise result), so any flush issues at most two edit attempts. -/
theorem edit_retry_exactly_once :
    ∀ (r2 : Bool) (store : Store) (mid : String) (force ra rb : Bool),
      safeEditWithRetry true r2 = (true, 1, []) ∧
      safeEditWithRetry false r2 = (r2, 2, [500]) ∧
      (flushMessage store mid force ra rb).2.2 ≤ 2 := by
  intro r2 store mid force ra rb
  refine ⟨rfl, rfl, ?_⟩
  unfold flushMessage
  cases hm : mapGet store mid with
  | none => exact Nat.zero_le 2
  | some buffer =>
    by_cases hp : truthyStrOpt buffer.platformMsgId = false
    · simp [hp]
    · by_cases ht : truthyStr (jsTrim (buildDisplayContent buffer)) = false
      · simp [hp, ht]
      · by_cases hh : force = false ∧
            simpleHash (buildDisplayContent buffer) = buffer.lastDisplayHash
        · simp [hp, ht, hh]
        · simp [hp, ht, hh, safeEditWithRetry]
          cases ra <;> simp

/-- C10: flushMessage records the new content hash into the buffer before the
edit outcome is known — the resulting store does not depend on the edit
outcomes at all, a counted write always leaves the rendered hash recorded,
and a subsequent unforced flush of the unchanged content issues no write, even
when the edit and its retry both failed. -/
theorem hash_recorded_before_edit :
    ∀ (store : Store) (mid : String) (buffer : MessageBuffer)
      (force r1 r2 r1' r2' r3 r4 : Bool),
      ((flushMessage store mid force r1 r2).1 = (flushMessage store mid force r1' r2').1) ∧
      (mapGet store mid = some buffer →
        (flushMessage store mid force r1 r2).2.1 = 1 →
        mapGet (flushMessage store mid force r1 r2).1 mid =
          some { buffer with lastDisplayHash := simpleHash (buildDisplayContent buffer) }) ∧
      (flushMessage (flushMessage store mid false r1 r2).1 mid false r3 r4).2.1 = 0 := by
  intro store mid buffer force r1 r2 r1' r2' r3 r4
  refine ⟨?_, ?_, flush_then_flush_zero store mid r1 r2 r3 r4⟩
  · unfold flushMessage
    cases hm : mapGet store mid with
    | none => rfl
    | some b =>
      by_cases hp : truthyStrOpt b.platformMsgId = false
      · simp [hp]
      · by_cases ht : truthyStr (jsTrim (buildDisplayContent b)) = false
        · simp [hp, ht]
        · by_cases hh : force = false ∧
              simpleHash (buildDisplayContent b) = b.lastDisplayHash
          · simp [hp, ht, hh]
          · simp [hp, ht, hh]
  · intro hm hc
    obtain ⟨b, hmb, hpb, htb, heq⟩ := @flushMessage_write_char store mid force r1 r2
      (by rw [hc]; exact Nat.one_ne_zero)
    have hb : b = buffer := by
      rw [hm] at hmb
      exact (Option.some.inj hmb).symm
    rw [hb] at heq
    rw [heq]
    exact mapGet_mapSet_self store mid _

/-- Buffer with an out-of-date recorded hash for the C10 witness. -/
def bufDirty : MessageBuffer :=
  { initialBuffer with platformMsgId := some "pm9", text := "hi" }

/-- Store for the C10 witness. -/
def storeDirty : Store := [("m9", bufDirty)]

/-- C10 witness: a concrete flush whose edit attempts both fail still counts
one write and leaves the rendered hash recorded in the buffer. -/
theorem hash_recorded_before_edit_witness :
    mapGet storeDirty "m9" = some bufDirty ∧
    (flushMessage storeDirty "m9" false false false).2.1 = 1 ∧
    mapGet (flushMessage storeDirty "m9" false false false).1 "m9" =
      some { bufDirty with lastDisplayHash := simpleHash (buildDisplayContent bufDirty) } := by
  have hc : (flushMessage storeDirty "m9" false false false).2.1 = 1 := by decide
  exact ⟨rfl, hc,
    (hash_recorded_before_edit storeDirty "m9" bufDirty false false false false false
      false false).2.1 rfl hc⟩

/-- C6: on a 404 prompt error, the catch block of createMessageHandler
(src/src/handler.ts) evicts the cached session so the next acquisition takes a
fresh id, while the catch block of createIncomingHandler
(src/src/handler/index.ts) leaves the cache untouched, so the next acquisition
reuses the stale id — the eviction the claim (and the spec) require is missing
from createIncomingHandler. -/
theorem not_found_eviction_divergence :
    ∀ (cache : List (String × String)) (key : String) (m : Option String),
      incomingHandlerCatch cache key { status := some 404, message := m } = cache ∧
      ((cache.map Prod.fst).Nodup →
        mapGet (messageHandlerCatch cache key { status := some 404, message := m }) key =
          none ∧
        (acquireSessionId
            (messageHandlerCatch cache key { status := some 404, message := m })
            key (some "s-new")).1 = some "s-new") ∧
      (∀ sid, mapGet cache key = some sid → truthyStr sid = true →
        (acquireSessionId
            (incomingHandlerCatch cache key { status := some 404, message := m })
            key (some "s-new")).1 = some sid) := by
  intro cache key m
  refine ⟨rfl, ?_, ?_⟩
  · intro hnd
    have hdel : mapGet (mapDelete cache key) key = none := mapGet_mapDelete_self hnd
    constructor
    · simpa [messageHandlerCatch] using hdel
    · simp [messageHandlerCatch, acquireSessionId, hdel, truthyStrOpt, truthyStr]
  · intro sid hsid htr
    simp [incomingHandlerCatch, acquireSessionId, hsid, truthyStrOpt, htr]

/-- Concrete stale cache entry for the C6 theorem. -/
def cacheStale : List (String × String) := [("feishu:c1", "sid-stale")]

/-- C6 witness: at the concrete failing input (a 404 prompt error while
"feishu:c1" maps to "sid-stale"), the message handler evicts and re-acquires a
fresh session, the incoming handler keeps the stale mapping and reuses it. -/
theorem not_found_eviction_divergence_witness :
    (cacheStale.map Prod.fst).Nodup ∧
    mapGet cacheStale "feishu:c1" = some "sid-stale" ∧
    truthyStr "sid-stale" = true ∧
    incomingHandlerCatch cacheStale "feishu:c1" { status := some 404, message := none } =
      cacheStale ∧
    mapGet (messageHandlerCatch cacheStale "feishu:c1"
        { status := some 404, message := none }) "feishu:c1" = none ∧
    (acquireSessionId (incomingHandlerCatch cacheStale "feishu:c1"
        { status := some 404, message := none }) "feishu:c1" (some "s-new")).1 =
      some "sid-stale" := by
  have h := not_found_eviction_divergence cacheStale "feishu:c1" none
  exact ⟨by decide, rfl, rfl, h.1, (h.2.1 (by decide)).1, h.2.2 "sid-stale" rfl rfl⟩

lemma runConn_replicate (N k : Nat) :
    (runConn k (List.replicate N .failure)).2 =
      (List.range N).map (fun i => backoffDelay (k + i)) := by
  induction N generalizing k with
  | zero => rfl
  | succ n ih =>
    rw [List.replicate_succ, List.range_succ_eq_map]
    simp only [runConn, stepConn, Option.toList, List.map_cons, List.map_map]
    rw [ih (k + 1)]
    have hf : ((fun i => backoffDelay (k + i)) ∘ Nat.succ) =
        fun i => backoffDelay (k + 1 + i) := by
      funext i
      simp only [Function.comp]
      congr 1
      omega
    rw [hf]
    simp

/-- C7: starting from a reset counter, the delay scheduled after the (i+1)-th
consecutive stream failure is min(5000 * (i+1), 60000) — so the Nth delay is
min(5000 * N, 60000) — a success event resets the counter to 0, and a run that
begins with a success behaves as if the counter were fresh. -/
theorem reconnect_backoff_linear_capped :
    ∀ (N n i : Nat),
      (runConn 0 (List.replicate N .failure)).2 =
        (List.range N).map (fun j => min (5000 * (j + 1)) 60000) ∧
      (runConn n (StreamEvent.success :: List.replicate N .failure)).2 =
        (List.range N).map (fun j => min (5000 * (j + 1)) 60000) ∧
      stepConn n .success = (0, none) ∧
      (i < N → ((runConn 0 (List.replicate N .failure)).2)[i]? =
        some (min (5000 * (i + 1)) 60000)) := by
  intro N n i
  have hmap : (fun j => backoffDelay (0 + j)) = fun j => min (5000 * (j + 1)) 60000 := by
    funext j
    simp [backoffDelay]
  have h0 : (runConn 0 (List.replicate N .failure)).2 =
      (List.range N).map (fun j => min (5000 * (j + 1)) 60000) := by
    rw [runConn_replicate N 0, hmap]
  refine ⟨h0, ?_, rfl, ?_⟩
  · simp only [runConn, stepConn, Option.toList, List.nil_append]
    exact h0
  · intro hiN
    rw [h0, List.getElem?_map, List.getElem?_range hiN]
    rfl

/-- C7 witness: three consecutive failures from a fresh counter schedule
delays 5000, 10000, 15000; the second delay sits at index 1. -/
theorem reconnect_backoff_linear_capped_witness :
    (1 < 3 → ((runConn 0 (List.replicate 3 .failure)).2)[1]? =
      some (min (5000 * (1 + 1)) 60000)) ∧
    (runConn 0 (List.replicate 3 .failure)).2 = [5000, 10000, 15000] := by
  refine ⟨(reconnect_backoff_linear_capped 3 0 1).2.2.2 ∘ ?_, by decide⟩
  exact id

/-- C8: the duplicate-delivery guard never grows beyond 2000 remembered ids,
a fresh id is accepted once and its immediate redelivery is rejected before
reaching the handler (exactly one invocation for two submissions), and at
capacity the oldest remembered id is evicted first. -/
theorem dedup_guard_bounded_fifo :
    ∀ (seen : List String) (mid : String),
      (seen.length ≤ 2000 → (isMessageProcessed seen mid).2.length ≤ 2000) ∧
      (mid ∉ seen →
        (isMessageProcessed seen mid).1 = false ∧
        (isMessageProcessed (isMessageProcessed seen mid).2 mid).1 = true ∧
        (processDeliveries seen 0 [mid, mid]).2 = 1 ∧
        (seen.length = 2000 →
          (isMessageProcessed seen mid).2 = seen.tail ++ [mid])) := by
  intro seen mid
  constructor
  · intro hlen
    unfold isMessageProcessed
    by_cases hmem : mid ∈ seen
    · simpa [hmem] using hlen
    · rw [if_neg hmem]
      by_cases hl : 2000 < (seen ++ [mid]).length
      · rw [if_pos hl]
        simp [List.length_tail]
        omega
      · rw [if_neg hl]
        simp at hl ⊢
        omega
  · intro hmem
    have hflag : (isMessageProcessed seen mid).1 = false := by
      unfold isMessageProcessed
      rw [if_neg hmem]
      split <;> rfl
    have hmem1 : mid ∈ (isMessageProcessed seen mid).2 := by
      unfold isMessageProcessed
      rw [if_neg hmem]
      split
      · rename_i hl
        cases seen with
        | nil => simp at hl
        | cons a t => simp
      · simp
    set s1 := (isMessageProcessed seen mid).2 with hs1
    have h1 : isMessageProcessed seen mid = (false, s1) := by
      rw [hs1]
      rw [← hflag]
    have h2 : isMessageProcessed s1 mid = (true, s1) := by
      unfold isMessageProcessed
      rw [if_pos hmem1]
    refine ⟨hflag, ?_, ?_, ?_⟩
    · rw [h2]
    · simp [processDeliveries, h1, h2]
    · intro hcap
      rw [hs1]
      unfold isMessageProcessed
      rw [if_neg hmem]
      have hl : 2000 < (seen ++ [mid]).length := by
        simp [hcap]
      rw [if_pos hl]
      cases seen with
      | nil => simp at hcap
      | cons a t => simp

/-- C8 witness: a fresh id is processed once and its redelivery is dropped. -/
theorem dedup_guard_bounded_fifo_witness :
    ("m1" ∉ ([] : List String)) ∧
    (([] : List String).length ≤ 2000) ∧
    (isMessageProcessed [] "m1").2.length ≤ 2000 ∧
    (isMessageProcessed [] "m1").1 = false ∧
    (isMessageProcessed (isMessageProcessed [] "m1").2 "m1").1 = true ∧
    (processDeliveries [] 0 ["m1", "m1"]).2 = 1 := by
  have h := dedup_guard_bounded_fifo [] "m1"
  have h2 := h.2 (by simp)
  exact ⟨by simp, by simp, h.1 (by simp), h2.1, h2.2.1, h2.2.2.1⟩

end LarkBridge
